import Mathlib

/-!
Verification of the `kill-em-all` process-tree termination engine
(`src/index.ts`) against its natural-language specification.

The TypeScript source is shallowly embedded as pure Lean functions.
The operating system is abstracted as explicit environments:

* `ExecResult` — outcome of one `safeExec`/`exec` invocation of the
  child-enumeration or probing command for a given PID;
* `ProcBehavior` — per-PID oracle for the outcome of the initial signal
  send (`process.kill(pid, signal)`), the per-iteration zombie probe
  (`isZombie`), and the per-iteration liveness check (`process.kill(pid, 0)`);
* `World` — the platform plus one `ProcBehavior` oracle per PID for each
  of the two escalation phases.

Real time is idealized to a discrete clock: loop iteration `i` of a
watcher happens at time `100 * i` ms (the source's poll interval), and an
`AbortSignal.timeout T` is observed as fired at time `t` exactly when
`T ≤ t` and `0 < t` (a JS timer callback is a macrotask and can never
run before the microtask continuation of a phase that performed no
waiting, hence the `0 < t` condition).

PIDs are modelled as `Int` (the source pushes any `parseInt` result,
including negative values, into its PID lists).
-/

deriving instance DecidableEq for Except

namespace KillEmAll

/-- The two platform classes the source branches on (`process.platform`). -/
inductive Platform where
  | win32 : Platform
  | posix : Platform
deriving DecidableEq

/-- A NodeJS signal argument: either a signal name or a signal number. -/
inductive JSSignal where
  | name : String → JSSignal
  | num : Int → JSSignal
deriving DecidableEq

/-- The source's test `signal === "SIGKILL" || signal === 9`. -/
def isSIGKILL : JSSignal → Bool
  | .name s => s = "SIGKILL"
  | .num n => n = 9

/-- Outcome of a `process.kill` call: success, or a thrown error
identified by its `code` property (for example `"ESRCH"` or `"EPERM"`). -/
inductive KillOutcome where
  | ok : KillOutcome
  | err : String → KillOutcome
deriving DecidableEq

/-- Outcome of one `safeExec` invocation (which never rejects): exit code
plus captured standard output and standard error. -/
structure ExecResult where
  exitCode : Int
  stdout : String
  stderr : String

/-- JS `str.split("\n")` on the character list of a string: the list of
newline-separated segments (JS yields `[""]` for the empty string). -/
def splitOnNL : List Char → List (List Char)
  | [] => [[]]
  | c :: rest =>
    if c = '\n' then [] :: splitOnNL rest
    else
      match splitOnNL rest with
      | l :: ls => (c :: l) :: ls
      | [] => [[c]]

/-- JS `str.trim()` on a character list: strip whitespace from both
ends. -/
def trimChars (cs : List Char) : List Char :=
  ((cs.dropWhile Char.isWhitespace).reverse.dropWhile Char.isWhitespace).reverse

/-- JS `parseInt(s, 10)` on an already-trimmed character list: optional
sign, then the longest digit prefix (trailing garbage ignored); `none`
models `NaN` (no digits at all). -/
def parseIntChars (cs : List Char) : Option Int :=
  let digitsVal : List Char → Option Int := fun cs =>
    let ds := cs.takeWhile Char.isDigit
    if ds.isEmpty then none
    else some (Int.ofNat (ds.foldl (fun a c => a * 10 + (c.toNat - 48)) 0))
  match cs with
  | '-' :: rest => (digitsVal rest).map (fun n => -n)
  | '+' :: rest => digitsVal rest
  | _ => digitsVal cs

/-- The stdout-parsing loop of `getChildProcesses`: split on newlines,
drop blank lines, parse each trimmed line with `parseInt`, skip `NaN`s. -/
def parseChildLines (stdout : String) : List Int :=
  ((splitOnNL stdout.data).filter (fun line => trimChars line ≠ [])).filterMap
    (fun line => parseIntChars (trimChars line))

/-- `getChildProcesses(pid)` from the source: run the platform's
child-enumeration command via `safeExec`; throw when anything was written
to stderr; return `[]` on a non-zero exit code; otherwise parse stdout.
The `execEnv` environment gives the exec outcome for each queried PID. -/
def getChildProcesses (execEnv : Int → ExecResult) (pid : Int) :
    Except String (List Int) :=
  let output := execEnv pid
  if output.stderr ≠ "" then
    .error ("Failed to get child processes: " ++ output.stderr)
  else if output.exitCode ≠ 0 then
    .ok []
  else
    .ok (parseChildLines output.stdout)

/-- The `while (stack.length > 0)` loop of `getRecursiveChildProcesses`.
The head of `stack` models the end of the JS array (where `pop` takes and
`push` appends), so pushing `childPids` prepends `kids.reverse`.  `fuel`
bounds the number of loop iterations; `none` models divergence beyond the
fuel (the source loop has no termination guarantee on cyclic tables). -/
def grcpLoop (children : Int → Except String (List Int)) :
    Nat → List Int → List Int → Option (Except String (List Int))
  | _, acc, [] => some (.ok acc)
  | 0, _, _ :: _ => none
  | fuel + 1, acc, cur :: rest =>
    match children cur with
    | .error e => some (.error e)
    | .ok kids => grcpLoop children fuel (acc ++ [cur]) (kids.reverse ++ rest)

/-- `getRecursiveChildProcesses(rootPid)` from the source: iterative
stack traversal recording every popped PID and pushing its children. -/
def getRecursiveChildProcesses (execEnv : Int → ExecResult) (fuel : Nat)
    (rootPid : Int) : Option (Except String (List Int)) :=
  grcpLoop (getChildProcesses execEnv) fuel [] [rootPid]

/-- Per-PID oracle describing how the operating system responds to the
watcher's actions during one phase: the outcome of the initial
`process.kill(pid, signal)`, and, for each poll-loop iteration `i`, the
result of the `isZombie` probe and of the `process.kill(pid, 0)`
liveness check. -/
structure ProcBehavior where
  sendOutcome : KillOutcome
  zombie : Nat → Bool
  liveness : Nat → KillOutcome

/-- Whether the `AbortSignal.timeout T` of a phase is observed as fired
at time `t` (ms since the phase started).  The timer callback is a JS
macrotask, so it can never be observed before any actual waiting
happened, hence the `0 < t` condition. -/
def firedBy (T t : Nat) : Bool := decide (T ≤ t) && decide (0 < t)

/-- Result of one watcher (`killProcess`) run: `hang` if the model's
fuel ran out, `errored code` if the watcher rethrew an unexpected error,
or `done confirmed i` if the promise resolved at loop iteration `i`
(`confirmed = true` when the PID was observed terminated, `false` when
the watcher returned because the abort signal had fired). -/
inductive WatcherResult where
  | hang : WatcherResult
  | errored : String → WatcherResult
  | done : Bool → Nat → WatcherResult
deriving DecidableEq

/-- Whether a watcher resolved (did not hang and did not throw). -/
def WatcherResult.isDone : WatcherResult → Bool
  | .done _ _ => true
  | _ => false

/-- Whether a watcher confirmed the PID's termination (rather than
returning because the phase's abort signal had fired). -/
def WatcherResult.confirmed : WatcherResult → Bool
  | .done true _ => true
  | _ => false

/-- Time (ms into the phase) at which a resolved watcher resolved. -/
def WatcherResult.endTime : WatcherResult → Nat
  | .done _ i => 100 * i
  | _ => 0

/-- The `for (;;)` poll loop of `killProcess`: at each iteration check
the abort signal, probe for zombie state when `zombieCheckCount` is zero
(resetting it to 5 before the shared decrement), then do the liveness
check; absorb `ESRCH` (and `EPERM` on Windows) as "exited", rethrow
anything else, and otherwise sleep 100 ms and repeat. -/
def killLoop (plat : Platform) (beh : ProcBehavior) (T : Nat) :
    Nat → Nat → Nat → WatcherResult
  | 0, _, _ => .hang
  | fuel + 1, i, zcc =>
    if firedBy T (100 * i) then .done false i
    else if zcc = 0 ∧ beh.zombie i then .done true i
    else
      match beh.liveness i with
      | .ok => killLoop plat beh T fuel (i + 1) (if zcc = 0 then 4 else zcc - 1)
      | .err code =>
        if code = "ESRCH" ∨ (plat = .win32 ∧ code = "EPERM") then .done true i
        else .errored code

/-- The poll loop as the specification words it (spec section 4.3, for
the refinement claim about probe cadence): identical to `killLoop`
except that the full zombie-state probe is performed exactly on the
first iteration and then on every 5th iteration (`i % 5 = 0`), with no
counter state. -/
def killLoopSpec (plat : Platform) (beh : ProcBehavior) (T : Nat) :
    Nat → Nat → WatcherResult
  | 0, _ => .hang
  | fuel + 1, i =>
    if firedBy T (100 * i) then .done false i
    else if i % 5 = 0 ∧ beh.zombie i then .done true i
    else
      match beh.liveness i with
      | .ok => killLoopSpec plat beh T fuel (i + 1)
      | .err code =>
        if code = "ESRCH" ∨ (plat = .win32 ∧ code = "EPERM") then .done true i
        else .errored code

/-- `killProcess(pid, signal, abortSignal)` from the source: send the
signal (via `taskkill /F` on Windows when the signal is the forceful
kill, which never throws; via `process.kill` otherwise, absorbing
`ESRCH`, and `EPERM` on Windows, as "already dead"), then poll until the
process exits, turns zombie, or the abort signal fires.  `T` is the
phase's timeout in ms and `fuel` bounds the poll loop. -/
def killProcess (plat : Platform) (pid : Int) (signal : JSSignal)
    (beh : ProcBehavior) (T fuel : Nat) : WatcherResult :=
  if plat = .win32 ∧ isSIGKILL signal then
    killLoop plat beh T fuel 0 0
  else
    match beh.sendOutcome with
    | .ok => killLoop plat beh T fuel 0 0
    | .err code =>
      if code = "ESRCH" ∨ (plat = .win32 ∧ code = "EPERM") then .done true 0
      else .errored code

/-- The platform together with the per-PID process behaviors for each of
the two escalation phases (the world can change between phases: a
process may, for example, exit only after receiving the second signal). -/
structure World where
  platform : Platform
  phase1 : Int → ProcBehavior
  phase2 : Int → ProcBehavior

/-- Options record of the source (`KillEmAllOptions`); `none` models an
omitted field, resolved by the destructuring defaults. -/
structure KillEmAllOptions where
  timeoutMs : Option Nat := none
  forceKillAfterTimeout : Option Bool := none
  forceKillTimeoutMs : Option Nat := none

/-- Resolved `timeoutMs` (default 5000). -/
def gracefulT (opts : KillEmAllOptions) : Nat := opts.timeoutMs.getD 5000

/-- Resolved `forceKillAfterTimeout` (default `true`). -/
def forceEnabled (opts : KillEmAllOptions) : Bool :=
  opts.forceKillAfterTimeout.getD true

/-- Resolved `forceKillTimeoutMs` (default: the resolved `timeoutMs`). -/
def forcefulT (opts : KillEmAllOptions) : Nat :=
  opts.forceKillTimeoutMs.getD (gracefulT opts)

/-- Fuel sufficient for a watcher's poll loop under timeout `T`: the
abort signal is observed at the latest at iteration `T / 100 + 1`. -/
def watchFuel (T : Nat) : Nat := T / 100 + 2

/-- The watcher results of the graceful phase, one per PID, in order
(`pids.map((pid) => killProcess(pid, signal, timeout))`). -/
def phase1Results (w : World) (pids : List Int) (signal : JSSignal)
    (opts : KillEmAllOptions) : List WatcherResult :=
  pids.map (fun pid =>
    killProcess w.platform pid signal (w.phase1 pid) (gracefulT opts)
      (watchFuel (gracefulT opts)))

/-- The watcher results of the forceful phase, one per PID, in order
(`pids.map((pid) => killProcess(pid, "SIGKILL", timeout))`). -/
def phase2Results (w : World) (pids : List Int) (opts : KillEmAllOptions) :
    List WatcherResult :=
  pids.map (fun pid =>
    killProcess w.platform pid (.name "SIGKILL") (w.phase2 pid)
      (forcefulT opts) (watchFuel (forcefulT opts)))

/-- Time at which a phase's `Promise.all` barrier resolves: the latest
end time among its watchers (0 for an empty PID list). -/
def maxEndTime (rs : List WatcherResult) : Nat :=
  rs.foldr (fun r a => max r.endTime a) 0

/-- `await Promise.all(...)` over one phase's watchers: rejects with the
first watcher error if any watcher rejects, hangs if some watcher hangs
and none rejects, and otherwise resolves at the barrier time. -/
def joinPhase (rs : List WatcherResult) : Option (Except String Nat) :=
  match rs.filterMap (fun r => match r with | .errored e => some e | _ => none) with
  | e :: _ => some (.error e)
  | [] => if WatcherResult.hang ∈ rs then none else some (.ok (maxEndTime rs))

/-- Whether the graceful phase's deadline is observed as fired at the
graceful phase's barrier. -/
def phase1Fired (w : World) (pids : List Int) (signal : JSSignal)
    (opts : KillEmAllOptions) : Bool :=
  firedBy (gracefulT opts) (maxEndTime (phase1Results w pids signal opts))

/-- Whether the forceful phase's deadline is observed as fired at the
forceful phase's barrier. -/
def phase2Fired (w : World) (pids : List Int) (opts : KillEmAllOptions) : Bool :=
  firedBy (forcefulT opts) (maxEndTime (phase2Results w pids opts))

/-- The message of the error thrown by `killProcesses` on timeout. -/
def killTimeoutMsg : String := "Failed to kill processes within timeout"

/-- Full outcome of one `killProcesses` call: the promise result
(`none` models a hang), whether the forceful phase was entered, and the
`(pid, signal)` watcher dispatches of each phase. -/
structure KillRun where
  result : Option (Except String Unit)
  forceRan : Bool
  phase1Sent : List (Int × JSSignal)
  phase2Sent : List (Int × JSSignal)

/-- `killProcesses(pids, signal, options)` from the source: run a
watcher per PID under the graceful timeout; if that timeout was observed
fired and `forceKillAfterTimeout` holds and the signal was not already
`SIGKILL`/9, run a second watcher per PID (same full list) with
`SIGKILL` under the forceful timeout; finally throw the timeout error
when the last phase's timeout was observed fired. -/
def killProcesses (w : World) (pids : List Int) (signal : JSSignal)
    (opts : KillEmAllOptions) : KillRun :=
  let sent1 := pids.map (fun pid => (pid, signal))
  let sent2 := pids.map (fun pid => (pid, JSSignal.name "SIGKILL"))
  match joinPhase (phase1Results w pids signal opts) with
  | none => ⟨none, false, sent1, []⟩
  | some (.error e) => ⟨some (.error e), false, sent1, []⟩
  | some (.ok end1) =>
    if firedBy (gracefulT opts) end1 && forceEnabled opts && !isSIGKILL signal then
      match joinPhase (phase2Results w pids opts) with
      | none => ⟨none, true, sent1, sent2⟩
      | some (.error e) => ⟨some (.error e), true, sent1, sent2⟩
      | some (.ok end2) =>
        ⟨some (if firedBy (forcefulT opts) end2 then .error killTimeoutMsg
               else .ok ()), true, sent1, sent2⟩
    else
      ⟨some (if firedBy (gracefulT opts) end1 then .error killTimeoutMsg
             else .ok ()), false, sent1, []⟩

/-- The watcher results of the phase whose timeout decides the final
throw: the forceful phase when it was entered, the graceful one
otherwise. -/
def lastPhaseResults (w : World) (pids : List Int) (signal : JSSignal)
    (opts : KillEmAllOptions) : List WatcherResult :=
  if (killProcesses w pids signal opts).forceRan then phase2Results w pids opts
  else phase1Results w pids signal opts

/-- `killEmAll(pid, signal, options)` from the source: discover the
tree, then terminate the discovered PID list. -/
def killEmAll (w : World) (execEnv : Int → ExecResult) (dFuel : Nat)
    (pid : Int) (signal : JSSignal) (opts : KillEmAllOptions) :
    Option (Except String Unit) :=
  match getRecursiveChildProcesses execEnv dFuel pid with
  | none => none
  | some (.error e) => some (.error e)
  | some (.ok pids) => (killProcesses w pids signal opts).result

/-! ### Concrete environments used by witnesses and counterexamples -/

/-- A process that stays alive forever: the signal send succeeds, the
zombie probe is always negative, the liveness check always succeeds. -/
def aliveBeh : ProcBehavior := ⟨.ok, fun _ => false, fun _ => .ok⟩

/-- A process that is already gone at signal time (`process.kill` throws
`ESRCH`). -/
def goneBeh : ProcBehavior := ⟨.err "ESRCH", fun _ => false, fun _ => .ok⟩

/-- A process the caller may not signal (`process.kill` throws
`EPERM`). -/
def epermBeh : ProcBehavior := ⟨.err "EPERM", fun _ => false, fun _ => .ok⟩

/-- A POSIX world in which every process ignores every signal. -/
def wAlive : World := ⟨.posix, fun _ => aliveBeh, fun _ => aliveBeh⟩

/-- A POSIX world in which every process is already gone. -/
def wGone : World := ⟨.posix, fun _ => goneBeh, fun _ => goneBeh⟩

/-- A POSIX world in which every signal send is denied with `EPERM`. -/
def wEperm : World := ⟨.posix, fun _ => epermBeh, fun _ => epermBeh⟩

/-- A POSIX world in which PID 1 is already gone but every other PID
ignores every signal in both phases. -/
def wMixed : World :=
  ⟨.posix, fun p => if p = 1 then goneBeh else aliveBeh,
    fun p => if p = 1 then goneBeh else aliveBeh⟩

/-- Options selecting a 100 ms graceful timeout. -/
def optsShort : KillEmAllOptions := { timeoutMs := some 100 }

/-- An exec environment in which no PID has children (the enumeration
tool reports "no matches" with a non-zero exit code and silent stderr). -/
def envNoKids : Int → ExecResult := fun _ => ⟨1, "", ""⟩

/-- A well-formed process table: PID 1 has children 2 and 3, nothing
else has children. -/
def envTree : Int → ExecResult := fun p =>
  if p = 1 then ⟨0, "2\n3\n", ""⟩ else ⟨1, "", ""⟩

/-- A pathological process table in which PID 4 is reported as a child
of both PID 2 and PID 3. -/
def envDupTable : Int → ExecResult := fun p =>
  if p = 1 then ⟨0, "2\n3\n", ""⟩
  else if p = 2 then ⟨0, "4\n", ""⟩
  else if p = 3 then ⟨0, "4\n", ""⟩
  else ⟨1, "", ""⟩

/-- An exec invocation that starts and succeeds (exit code 0, a child on
stdout) but also writes a diagnostic to stderr. -/
def envDiag : Int → ExecResult := fun _ => ⟨0, "42\n", "some warning"⟩

/-- The loop invariant for duplicate-freedom: the recorded and scheduled
PIDs are jointly duplicate-free, and every one of them is either the
root or a child of an already-recorded PID. -/
def GrcpInv (children : Int → Except String (List Int)) (root : Int)
    (acc stack : List Int) : Prop :=
  (acc ++ stack).Nodup ∧
    ∀ x ∈ acc ++ stack, x = root ∨
      ∃ p kids, p ∈ acc ∧ children p = .ok kids ∧ x ∈ kids

/-! ### Tree-discovery lemmas -/

/-- Everything already recorded or still scheduled when the discovery
loop runs to successful completion ends up in the result. -/
theorem grcpLoop_mem (children : Int → Except String (List Int)) :
    ∀ fuel acc stack res x, x ∈ acc ++ stack →
      grcpLoop children fuel acc stack = some (.ok res) → x ∈ res := by
  intro fuel
  induction fuel with
  | zero =>
    intro acc stack res x hx h
    cases stack with
    | nil =>
      simp only [grcpLoop, Option.some.injEq, Except.ok.injEq] at h
      simpa [h] using hx
    | cons cur rest => simp [grcpLoop] at h
  | succ n ih =>
    intro acc stack res x hx h
    cases stack with
    | nil =>
      simp only [grcpLoop, Option.some.injEq, Except.ok.injEq] at h
      simpa [h] using hx
    | cons cur rest =>
      rw [grcpLoop] at h
      cases hc : children cur with
      | error e => rw [hc] at h; simp at h
      | ok kids =>
        rw [hc] at h
        refine ih (acc ++ [cur]) (kids.reverse ++ rest) res x ?_ h
        simp only [List.mem_append, List.mem_cons, List.mem_reverse] at hx ⊢
        tauto

/-- Freshness of the children of the PID being expanded: under a
well-formed table (duplicate-free, pairwise-disjoint children lists that
never contain the root) none of them has been recorded or scheduled
before. -/
theorem grcp_kids_fresh (children : Int → Except String (List Int)) (root : Int)
    (hD : ∀ p q kp kq, children p = .ok kp → children q = .ok kq → p ≠ q →
      ∀ x, x ∈ kp → x ∈ kq → False)
    (hR : ∀ p kids, children p = .ok kids → root ∉ kids)
    (acc rest : List Int) (cur : Int) (kids : List Int)
    (hinv : GrcpInv children root acc (cur :: rest))
    (hc : children cur = .ok kids) :
    ∀ k ∈ kids, k ∉ acc ++ cur :: rest := by
  intro k hk hmem
  obtain ⟨hnd, horig⟩ := hinv
  rcases horig k hmem with hroot | ⟨p, kids', hp, hck, hk'⟩
  · exact hR cur kids hc (hroot ▸ hk)
  · by_cases hpc : p = cur
    · have hcur : cur ∉ acc := fun hca =>
        (List.nodup_append.mp hnd).2.2 hca (List.mem_cons_self cur rest)
      exact hcur (hpc ▸ hp)
    · exact hD p cur kids' kids hck hc hpc k hk' hk

/-- One expansion step of the discovery loop preserves the invariant. -/
theorem grcpInv_step (children : Int → Except String (List Int)) (root : Int)
    (hN : ∀ p kids, children p = .ok kids → kids.Nodup)
    (hD : ∀ p q kp kq, children p = .ok kp → children q = .ok kq → p ≠ q →
      ∀ x, x ∈ kp → x ∈ kq → False)
    (hR : ∀ p kids, children p = .ok kids → root ∉ kids)
    (acc rest : List Int) (cur : Int) (kids : List Int)
    (hinv : GrcpInv children root acc (cur :: rest))
    (hc : children cur = .ok kids) :
    GrcpInv children root (acc ++ [cur]) (kids.reverse ++ rest) := by
  have hfresh := grcp_kids_fresh children root hD hR acc rest cur kids hinv hc
  obtain ⟨hnd, horig⟩ := hinv
  have hnd' : ((acc ++ [cur]) ++ rest).Nodup := by
    simpa using hnd
  constructor
  · -- Nodup of (acc ++ [cur]) ++ (kids.reverse ++ rest)
    rw [List.nodup_append] at hnd' ⊢
    obtain ⟨h1, h2, h3⟩ := hnd'
    refine ⟨h1, ?_, ?_⟩
    · rw [List.nodup_append]
      refine ⟨List.nodup_reverse.mpr (hN cur kids hc), h2, ?_⟩
      intro a ha har
      exact hfresh a (List.mem_reverse.mp ha)
        (List.mem_append.mpr (.inr (List.mem_cons_of_mem cur har)))
    · intro a ha hmem2
      rcases List.mem_append.mp hmem2 with hk | hr
      · refine hfresh a (List.mem_reverse.mp hk) ?_
        rcases List.mem_append.mp ha with h | h
        · exact List.mem_append.mpr (.inl h)
        · exact List.mem_append.mpr
            (.inr (List.mem_singleton.mp h ▸ List.mem_cons_self cur rest))
      · exact h3 ha hr
  · -- origin property
    intro x hx
    have hweak : ∀ y : Int, (y = root ∨ ∃ p kids, p ∈ acc ∧
        children p = .ok kids ∧ y ∈ kids) → y = root ∨ ∃ p kids,
        p ∈ acc ++ [cur] ∧ children p = .ok kids ∧ y ∈ kids := by
      rintro y (h | ⟨p, kids', hp, hck, hk'⟩)
      · exact .inl h
      · exact .inr ⟨p, kids', List.mem_append.mpr (.inl hp), hck, hk'⟩
    rcases List.mem_append.mp hx with h1 | h2
    · rcases List.mem_append.mp h1 with ha | hcur
      · exact hweak x (horig x (List.mem_append.mpr (.inl ha)))
      · refine hweak x (horig x ?_)
        exact List.mem_append.mpr
          (.inr (List.mem_singleton.mp hcur ▸ List.mem_cons_self cur rest))
    · rcases List.mem_append.mp h2 with hk | hr
      · exact .inr ⟨cur, kids, List.mem_append.mpr (.inr (List.mem_singleton.mpr rfl)),
          hc, List.mem_reverse.mp hk⟩
      · exact hweak x (horig x (List.mem_append.mpr (.inr (List.mem_cons_of_mem cur hr))))

/-- Under a well-formed table the discovery loop, started from any state
satisfying the invariant, yields a duplicate-free result. -/
theorem grcpLoop_nodup (children : Int → Except String (List Int)) (root : Int)
    (hN : ∀ p kids, children p = .ok kids → kids.Nodup)
    (hD : ∀ p q kp kq, children p = .ok kp → children q = .ok kq → p ≠ q →
      ∀ x, x ∈ kp → x ∈ kq → False)
    (hR : ∀ p kids, children p = .ok kids → root ∉ kids) :
    ∀ fuel acc stack res, GrcpInv children root acc stack →
      grcpLoop children fuel acc stack = some (.ok res) → res.Nodup := by
  intro fuel
  induction fuel with
  | zero =>
    intro acc stack res hinv h
    cases stack with
    | nil =>
      simp only [grcpLoop, Option.some.injEq, Except.ok.injEq] at h
      simpa [← h] using hinv.1
    | cons cur rest => simp [grcpLoop] at h
  | succ n ih =>
    intro acc stack res hinv h
    cases stack with
    | nil =>
      simp only [grcpLoop, Option.some.injEq, Except.ok.injEq] at h
      simpa [← h] using hinv.1
    | cons cur rest =>
      rw [grcpLoop] at h
      cases hc : children cur with
      | error e => rw [hc] at h; simp at h
      | ok kids =>
        rw [hc] at h
        exact ih (acc ++ [cur]) (kids.reverse ++ rest) res
          (grcpInv_step children root hN hD hR acc rest cur kids hinv hc) h

/-! ### C3, C4, C5 — tree discovery and child enumeration -/

/-- C3: for every root PID, `getRecursiveChildProcesses` always includes
the root in its result; and whenever the root's children query returns
no children (in particular when the root no longer exists, since the
query then reports no matches) the result is exactly `[root]`. -/
theorem discovery_includes_root (execEnv : Int → ExecResult) (root : Int) :
    (∀ fuel res, getRecursiveChildProcesses execEnv fuel root = some (.ok res) →
      root ∈ res)
    ∧ (getChildProcesses execEnv root = .ok [] →
      ∀ dFuel, getRecursiveChildProcesses execEnv (dFuel + 1) root =
        some (.ok [root])) := by
  constructor
  · intro fuel res h
    exact grcpLoop_mem (getChildProcesses execEnv) fuel [] [root] res root
      (by simp) h
  · intro h dFuel
    simp only [getRecursiveChildProcesses, grcpLoop, h, List.reverse_nil,
      List.nil_append, List.append_nil]

/-- C3 witness: a root with no children discovers exactly itself, and
the root is a member of the result. -/
theorem discovery_includes_root_witness :
    getRecursiveChildProcesses envNoKids 5 9 = some (.ok [9])
    ∧ (9 : Int) ∈ [(9 : Int)] :=
  ⟨(discovery_includes_root envNoKids 9).2 (by decide) 4,
   (discovery_includes_root envNoKids 9).1 5 [9]
     ((discovery_includes_root envNoKids 9).2 (by decide) 4)⟩

/-- C4 counterexample: the source never deduplicates, so under a
pathological process table in which PID 4 is reported as a child of both
PID 2 and PID 3, `getRecursiveChildProcesses` returns PID 4 twice —
refuting the claim that the result never contains duplicates under
pathological process-table states. -/
theorem discovery_duplicate_on_shared_child :
    getRecursiveChildProcesses envDupTable 10 1 = some (.ok [1, 3, 4, 2, 4])
    ∧ ¬ ([(1 : Int), 3, 4, 2, 4].Nodup) :=
  ⟨by decide, by decide⟩

/-- C4 amended: when the child-enumeration backend describes a genuine
process table — children lists are duplicate-free, children lists of
distinct parents are disjoint (each PID has at most one parent), and the
root is never reported as anyone's child — the result of
`getRecursiveChildProcesses` contains no duplicate PIDs. -/
theorem discovery_nodup_on_wellformed_table (execEnv : Int → ExecResult)
    (root : Int)
    (hN : ∀ p kids, getChildProcesses execEnv p = .ok kids → kids.Nodup)
    (hD : ∀ p q kp kq, getChildProcesses execEnv p = .ok kp →
      getChildProcesses execEnv q = .ok kq → p ≠ q →
      ∀ x, x ∈ kp → x ∈ kq → False)
    (hR : ∀ p kids, getChildProcesses execEnv p = .ok kids → root ∉ kids) :
    ∀ fuel res, getRecursiveChildProcesses execEnv fuel root = some (.ok res) →
      res.Nodup := by
  intro fuel res h
  refine grcpLoop_nodup (getChildProcesses execEnv) root hN hD hR fuel [] [root]
    res ⟨by simp, ?_⟩ h
  intro x hx
  left
  simpa using hx

/-- C4 amended witness: on the well-formed table `envTree` the
discovered list `[1, 3, 2]` is duplicate-free. -/
theorem discovery_nodup_on_wellformed_table_witness :
    [(1 : Int), 3, 2].Nodup := by
  have hgc : ∀ p : Int, getChildProcesses envTree p =
      if p = 1 then .ok [2, 3] else .ok [] := by
    intro p
    by_cases hp : p = 1
    · subst hp; decide
    · have henv : envTree p = ⟨1, "", ""⟩ := by simp [envTree, hp]
      simp [getChildProcesses, henv, hp]
  refine discovery_nodup_on_wellformed_table envTree 1 ?_ ?_ ?_ 10 [1, 3, 2]
    (by decide)
  · intro p kids h
    rw [hgc p] at h
    by_cases hp : p = 1
    · rw [if_pos hp] at h
      injection h with h'
      rw [← h']; decide
    · rw [if_neg hp] at h
      injection h with h'
      rw [← h']; simp
  · intro p q kp kq hp hq hne x hxp hxq
    rw [hgc p] at hp
    rw [hgc q] at hq
    by_cases h1 : p = 1
    · by_cases h2 : q = 1
      · exact hne (h1.trans h2.symm)
      · rw [if_neg h2] at hq
        injection hq with h'
        rw [← h'] at hxq
        simp at hxq
    · rw [if_neg h1] at hp
      injection hp with h'
      rw [← h'] at hxp
      simp at hxp
  · intro p kids h
    rw [hgc p] at h
    by_cases hp : p = 1
    · rw [if_pos hp] at h
      injection h with h'
      rw [← h']; decide
    · rw [if_neg hp] at h
      injection h with h'
      rw [← h']; simp

/-- C5 counterexample: the enumeration tool started and succeeded (exit
code 0, a valid child PID on stdout) but wrote a diagnostic to stderr,
and `getChildProcesses` nevertheless propagates a failure — refuting the
claim that a failure is propagated only when the query mechanism itself
cannot be started and never merely because the tool produced diagnostic
output. -/
theorem getChildProcesses_error_on_diagnostic :
    getChildProcesses envDiag 7 = .error "Failed to get child processes: some warning"
    ∧ (envDiag 7).exitCode = 0 :=
  ⟨by decide, by decide⟩

/-- C5 amended: `getChildProcesses` propagates a failure exactly when
the exec invocation wrote something to stderr (the code's proxy for the
query mechanism failing), regardless of exit code; with silent stderr it
returns `[]` (not an error) on any non-zero exit code — the "no
children" / "no matches" condition — and parses stdout on exit code 0. -/
theorem getChildProcesses_failure_iff (execEnv : Int → ExecResult) (pid : Int) :
    ((∃ e, getChildProcesses execEnv pid = .error e) ↔ (execEnv pid).stderr ≠ "")
    ∧ ((execEnv pid).stderr = "" → (execEnv pid).exitCode ≠ 0 →
      getChildProcesses execEnv pid = .ok [])
    ∧ ((execEnv pid).stderr = "" → (execEnv pid).exitCode = 0 →
      getChildProcesses execEnv pid = .ok (parseChildLines (execEnv pid).stdout)) := by
  refine ⟨⟨?_, ?_⟩, ?_, ?_⟩
  · rintro ⟨e, he⟩ heq
    simp only [getChildProcesses, heq] at he
    split at he
    · next h => exact h rfl
    · split at he <;> simp at he
  · intro hstderr
    exact ⟨"Failed to get child processes: " ++ (execEnv pid).stderr,
      by simp only [getChildProcesses, if_pos hstderr]⟩
  · intro h0 h1
    simp [getChildProcesses, h0, h1]
  · intro h0 h1
    simp [getChildProcesses, h0, h1]

/-- C5 amended witness: a "no matches" invocation (exit code 1, silent
stderr) yields the empty child list. -/
theorem getChildProcesses_failure_iff_witness :
    getChildProcesses envNoKids 3 = .ok [] :=
  (getChildProcesses_failure_iff envNoKids 3).2.1 (by decide) (by decide)

/-! ### Exit-watcher lemmas -/

/-- A watcher loop that resolves did so consistently with the abort
signal: a confirmed termination happened strictly before the deadline
was observable, an abort exit happened exactly when it was. -/
theorem killLoop_done_fired (plat : Platform) (beh : ProcBehavior) (T : Nat) :
    ∀ fuel i zcc b j, killLoop plat beh T fuel i zcc = .done b j →
      firedBy T (100 * j) = !b := by
  intro fuel
  induction fuel with
  | zero => intro i zcc b j h; simp [killLoop] at h
  | succ n ih =>
    intro i zcc b j h
    rw [killLoop] at h
    split at h
    · next hf =>
      injection h with hb hj
      subst hb; subst hj
      simpa using hf
    · next hf =>
      split at h
      · injection h with hb hj
        subst hb; subst hj
        simpa using Bool.eq_false_iff.mpr hf
      · split at h
        · exact ih _ _ _ _ h
        · split at h
          · injection h with hb hj
            subst hb; subst hj
            simpa using Bool.eq_false_iff.mpr hf
          · exact WatcherResult.noConfusion h

/-- Same consistency property for an entire watcher run: the immediate
"already dead at signal time" exit is a confirmation at time 0, where
the deadline is never observable. -/
theorem killProcess_done_fired (plat : Platform) (pid : Int) (signal : JSSignal)
    (beh : ProcBehavior) (T fuel : Nat) :
    ∀ b j, killProcess plat pid signal beh T fuel = .done b j →
      firedBy T (100 * j) = !b := by
  intro b j h
  rw [killProcess] at h
  split at h
  · exact killLoop_done_fired plat beh T fuel 0 0 b j h
  · split at h
    · exact killLoop_done_fired plat beh T fuel 0 0 b j h
    · split at h
      · injection h with hb hj
        subst hb; subst hj
        rw [Nat.mul_zero]
        unfold firedBy
        rw [show decide (0 < 0) = false from rfl, Bool.and_false]
        rfl
      · exact WatcherResult.noConfusion h

/-- Any error the watcher loop rethrows is outside the absorbed class
(`ESRCH` everywhere, `EPERM` on Windows). -/
theorem killLoop_errored (plat : Platform) (beh : ProcBehavior) (T : Nat) :
    ∀ fuel i zcc e, killLoop plat beh T fuel i zcc = .errored e →
      ¬(e = "ESRCH" ∨ (plat = .win32 ∧ e = "EPERM")) := by
  intro fuel
  induction fuel with
  | zero => intro i zcc e h; simp [killLoop] at h
  | succ n ih =>
    intro i zcc e h
    rw [killLoop] at h
    split at h
    · exact WatcherResult.noConfusion h
    · split at h
      · exact WatcherResult.noConfusion h
      · split at h
        · exact ih _ _ _ h
        · split at h
          · exact WatcherResult.noConfusion h
          · next habs =>
            injection h with h'
            exact h' ▸ habs

/-- Any error an entire watcher run rethrows is outside the absorbed
class. -/
theorem killProcess_errored (plat : Platform) (pid : Int) (signal : JSSignal)
    (beh : ProcBehavior) (T fuel : Nat) :
    ∀ e, killProcess plat pid signal beh T fuel = .errored e →
      ¬(e = "ESRCH" ∨ (plat = .win32 ∧ e = "EPERM")) := by
  intro e h
  rw [killProcess] at h
  split at h
  · exact killLoop_errored plat beh T fuel 0 0 e h
  · split at h
    · exact killLoop_errored plat beh T fuel 0 0 e h
    · split at h
      · exact WatcherResult.noConfusion h
      · next habs =>
        injection h with h'
        exact h' ▸ habs

/-! ### C8 — probe cadence refinement -/

/-- C8: started the way the source starts it (`zombieCheckCount = 0`),
the watcher's poll loop behaves exactly like the specification's loop in
which the full zombie-state probe runs on the first iteration and then
on every 5th iteration (`i % 5 = 0`), the cheaper liveness-only check
runs on the iterations in between, a zombie probe result terminates the
wait as exited, and an absent liveness result terminates the wait. -/
theorem killLoop_probe_cadence (plat : Platform) (beh : ProcBehavior) (T : Nat) :
    ∀ fuel, killLoop plat beh T fuel 0 0 = killLoopSpec plat beh T fuel 0 := by
  suffices h : ∀ fuel i, killLoop plat beh T fuel i ((5 - i % 5) % 5) =
      killLoopSpec plat beh T fuel i by
    intro fuel
    simpa using h fuel 0
  intro fuel
  induction fuel with
  | zero => intro i; rfl
  | succ n ih =>
    intro i
    rw [killLoop, killLoopSpec]
    by_cases hf : firedBy T (100 * i) = true
    · rw [if_pos hf, if_pos hf]
    · rw [if_neg hf, if_neg hf]
      by_cases hz : i % 5 = 0
      · have hz' : (5 - i % 5) % 5 = 0 := by omega
        have harg : (if (5 - i % 5) % 5 = 0 then 4 else (5 - i % 5) % 5 - 1) =
            (5 - (i + 1) % 5) % 5 := by
          rw [if_pos hz']
          omega
        rw [harg]
        by_cases hzom : beh.zombie i = true
        · rw [if_pos (show (5 - i % 5) % 5 = 0 ∧ beh.zombie i = true from
              ⟨hz', hzom⟩),
            if_pos (show i % 5 = 0 ∧ beh.zombie i = true from ⟨hz, hzom⟩)]
        · rw [if_neg (show ¬((5 - i % 5) % 5 = 0 ∧ beh.zombie i = true) from
              fun hc => hzom hc.2),
            if_neg (show ¬(i % 5 = 0 ∧ beh.zombie i = true) from
              fun hc => hzom hc.2)]
          cases beh.liveness i with
          | ok => exact ih (i + 1)
          | err code => rfl
      · have hz' : ¬((5 - i % 5) % 5 = 0) := by omega
        have harg : (if (5 - i % 5) % 5 = 0 then 4 else (5 - i % 5) % 5 - 1) =
            (5 - (i + 1) % 5) % 5 := by
          rw [if_neg hz']
          omega
        rw [harg]
        rw [if_neg (show ¬((5 - i % 5) % 5 = 0 ∧ beh.zombie i = true) from
            fun hc => hz' hc.1),
          if_neg (show ¬(i % 5 = 0 ∧ beh.zombie i = true) from
            fun hc => hz hc.1)]
        cases beh.liveness i with
        | ok => exact ih (i + 1)
        | err code => rfl

/-! ### C6 — absent target treated as immediately terminated -/

/-- C6: when the signal send reports the target as gone (`ESRCH`), the
watcher resolves immediately as a confirmed termination at time 0
without error; consequently, for a root whose children query reports no
matches and whose signal send reports `ESRCH` (a root PID that never
existed), `killEmAll` resolves successfully.  The model is a pure
function of the world, so a repeated call under the same conditions
returns the same success (idempotence on absent targets). -/
theorem absent_target_immediate_success (plat : Platform) (pid : Int)
    (signal : JSSignal) (beh : ProcBehavior) (T fuel : Nat) (w : World)
    (execEnv : Int → ExecResult) (root : Int) (opts : KillEmAllOptions)
    (dFuel : Nat) :
    (¬(plat = .win32 ∧ isSIGKILL signal = true) → beh.sendOutcome = .err "ESRCH" →
      killProcess plat pid signal beh T fuel = .done true 0)
    ∧ (getChildProcesses execEnv root = .ok [] →
      (w.phase1 root).sendOutcome = .err "ESRCH" →
      ¬(w.platform = .win32 ∧ isSIGKILL signal = true) →
      killEmAll w execEnv (dFuel + 1) root signal opts = some (.ok ())) := by
  have hkp : ∀ (plat' : Platform) (pid' : Int) (beh' : ProcBehavior),
      ¬(plat' = .win32 ∧ isSIGKILL signal = true) →
      beh'.sendOutcome = .err "ESRCH" →
      ∀ T' fuel', killProcess plat' pid' signal beh' T' fuel' = .done true 0 := by
    intro plat' pid' beh' hp hs T' fuel'
    rw [killProcess, if_neg hp, hs]
    exact if_pos (Or.inl rfl)
  constructor
  · intro hp hs
    exact hkp plat pid beh hp hs T fuel
  · intro hkids hs hp
    have hdisc : getRecursiveChildProcesses execEnv (dFuel + 1) root =
        some (.ok [root]) := by
      simp only [getRecursiveChildProcesses, grcpLoop, hkids, List.reverse_nil,
        List.nil_append, List.append_nil]
    have hres : phase1Results w [root] signal opts = [.done true 0] := by
      simp only [phase1Results, List.map_cons, List.map_nil]
      rw [hkp w.platform root (w.phase1 root) hp hs]
    have hjoin : joinPhase [WatcherResult.done true 0] = some (.ok 0) := rfl
    have hnf : firedBy (gracefulT opts) 0 = false := by
      unfold firedBy
      rw [show decide (0 < 0) = false from rfl, Bool.and_false]
    simp only [killEmAll, hdisc, killProcesses, hres, hjoin, hnf,
      Bool.false_and, if_neg, Bool.false_eq_true, if_false]

/-! ### C7 — which PID-local anomalies are absorbed -/

/-- C7 counterexample: on POSIX an access-denied (`EPERM`) at
signal-time is not absorbed by the watcher: it surfaces as an error to
the caller of `killProcesses` — refuting the claim that access-denied
anomalies are absorbed on every platform. -/
theorem posix_eperm_surfaces :
    (killProcesses wEperm [5] (.name "SIGTERM") {}).result =
      some (.error "EPERM") := by decide

/-- C7 amended: the watcher absorbs PID-local anomalies per platform —
`ESRCH` (target already gone) at signal-time or probe-time on every
platform, and `EPERM` (access denied) only on Windows — so an error
surfacing from `killProcess` is never `ESRCH`, and on Windows never
`EPERM`; a POSIX `EPERM` does surface (previous counterexample). -/
theorem watcher_absorbed_anomalies_never_surface (plat : Platform) (pid : Int)
    (signal : JSSignal) (beh : ProcBehavior) (T fuel : Nat) :
    ∀ e, killProcess plat pid signal beh T fuel = .errored e →
      e ≠ "ESRCH" ∧ (plat = .win32 → e ≠ "EPERM") := by
  intro e h
  have := killProcess_errored plat pid signal beh T fuel e h
  push_neg at this
  exact ⟨this.1, fun hw => (this.2 hw)⟩

/-- C7 amended witness: a POSIX watcher hitting an unexpected `EACCES`
at signal time rethrows it, and the rethrown code is indeed outside the
absorbed class. -/
theorem watcher_absorbed_anomalies_witness :
    "EACCES" ≠ "ESRCH" ∧ (Platform.posix = Platform.win32 → "EACCES" ≠ "EPERM") :=
  watcher_absorbed_anomalies_never_surface .posix 5 (.name "SIGTERM")
    ⟨.err "EACCES", fun _ => false, fun _ => .ok⟩ 5000 52 "EACCES" (by decide)

/-- C6 witness: a never-existing root (children query: no matches;
signal send: `ESRCH`) is killed "successfully" at both the watcher and
the `killEmAll` level. -/
theorem absent_target_immediate_success_witness :
    killProcess .posix 9 (.name "SIGTERM") goneBeh 5000 52 = .done true 0
    ∧ killEmAll wGone envNoKids 5 9 (.name "SIGTERM") {} = some (.ok ()) :=
  ⟨(absent_target_immediate_success .posix 9 (.name "SIGTERM") goneBeh 5000 52
      wGone envNoKids 9 {} 4).1 (by decide) (by decide),
   (absent_target_immediate_success .posix 9 (.name "SIGTERM") goneBeh 5000 52
      wGone envNoKids 9 {} 4).2 (by decide) (by decide) (by decide)⟩

/-! ### Phase-level lemmas -/

/-- When every watcher of a phase resolved, the phase's `Promise.all`
resolves at the barrier time. -/
theorem joinPhase_all_done (rs : List WatcherResult)
    (h : ∀ r ∈ rs, r.isDone = true) :
    joinPhase rs = some (.ok (maxEndTime rs)) := by
  rw [joinPhase]
  have hfm : rs.filterMap
      (fun r => match r with | .errored e => some e | _ => none) = [] := by
    rw [List.filterMap_eq_nil_iff]
    intro r hr
    cases r with
    | hang => rfl
    | errored e => exact absurd (h _ hr) (by simp [WatcherResult.isDone])
    | done b i => rfl
  rw [hfm]
  have hnh : WatcherResult.hang ∉ rs := fun hmem =>
    absurd (h _ hmem) (by simp [WatcherResult.isDone])
  exact if_neg hnh

/-- Each watcher's end time is bounded by the phase barrier time. -/
theorem endTime_le_maxEndTime (rs : List WatcherResult) (r : WatcherResult)
    (h : r ∈ rs) : r.endTime ≤ maxEndTime rs := by
  induction rs with
  | nil => simp at h
  | cons a as ih =>
    rcases List.mem_cons.mp h with rfl | hmem
    · exact Nat.le_max_left _ _
    · exact Nat.le_trans (ih hmem) (Nat.le_max_right _ _)

/-- A positive barrier time is attained by some watcher. -/
theorem maxEndTime_attained (rs : List WatcherResult)
    (h : maxEndTime rs ≠ 0) :
    ∃ r ∈ rs, r.endTime = maxEndTime rs := by
  induction rs with
  | nil => simp [maxEndTime] at h
  | cons a as ih =>
    have hm : maxEndTime (a :: as) = max a.endTime (maxEndTime as) := rfl
    rcases Nat.le_total (maxEndTime as) a.endTime with hle | hle
    · exact ⟨a, List.mem_cons_self a as, by rw [hm, Nat.max_eq_left hle]⟩
    · rw [hm, Nat.max_eq_right hle] at h ⊢
      obtain ⟨r, hr, hre⟩ := ih h
      exact ⟨r, List.mem_cons_of_mem a hr, hre⟩

/-- Deadline-observation is monotone in time. -/
theorem firedBy_mono (T t t' : Nat) (h : firedBy T t = true) (hle : t ≤ t') :
    firedBy T t' = true := by
  unfold firedBy at h ⊢
  simp only [Bool.and_eq_true, decide_eq_true_eq] at h ⊢
  omega

/-- The heart of the timeout aggregation: when every watcher of a phase
resolved and each watcher is abort-consistent (lemma
`killProcess_done_fired`), the phase deadline is observed fired at the
barrier if and only if some watcher failed to confirm termination. -/
theorem phaseFired_iff_unconfirmed (T : Nat) (rs : List WatcherResult)
    (hd : ∀ r ∈ rs, r.isDone = true)
    (hp : ∀ r ∈ rs, ∀ b j, r = .done b j → firedBy T (100 * j) = !b) :
    (firedBy T (maxEndTime rs) = true ↔ ∃ r ∈ rs, r.confirmed = false) := by
  constructor
  · intro hf
    have hpos : maxEndTime rs ≠ 0 := by
      intro h0
      rw [h0] at hf
      unfold firedBy at hf
      simp at hf
    obtain ⟨r, hr, hre⟩ := maxEndTime_attained rs hpos
    cases r with
    | hang => exact absurd (hd _ hr) (by simp [WatcherResult.isDone])
    | errored e => exact absurd (hd _ hr) (by simp [WatcherResult.isDone])
    | done b j =>
      cases b with
      | true =>
        have := hp _ hr true j rfl
        rw [show WatcherResult.endTime (.done true j) = 100 * j from rfl] at hre
        rw [hre] at this
        rw [hf] at this
        exact absurd this (by simp)
      | false => exact ⟨.done false j, hr, rfl⟩
  · rintro ⟨r, hr, hc⟩
    cases r with
    | hang => exact absurd (hd _ hr) (by simp [WatcherResult.isDone])
    | errored e => exact absurd (hd _ hr) (by simp [WatcherResult.isDone])
    | done b j =>
      cases b with
      | true => simp [WatcherResult.confirmed] at hc
      | false =>
        have hfj := hp _ hr false j rfl
        exact firedBy_mono T (100 * j) (maxEndTime rs) (by simpa using hfj)
          (endTime_le_maxEndTime rs _ hr)

/-- Abort-consistency of all graceful-phase watcher results. -/
theorem phase1Results_prop (w : World) (pids : List Int) (signal : JSSignal)
    (opts : KillEmAllOptions) :
    ∀ r ∈ phase1Results w pids signal opts, ∀ b j, r = .done b j →
      firedBy (gracefulT opts) (100 * j) = !b := by
  intro r hr b j hrd
  rw [phase1Results, List.mem_map] at hr
  obtain ⟨pid, _, rfl⟩ := hr
  exact killProcess_done_fired _ _ _ _ _ _ b j hrd

/-- Abort-consistency of all forceful-phase watcher results. -/
theorem phase2Results_prop (w : World) (pids : List Int)
    (opts : KillEmAllOptions) :
    ∀ r ∈ phase2Results w pids opts, ∀ b j, r = .done b j →
      firedBy (forcefulT opts) (100 * j) = !b := by
  intro r hr b j hrd
  rw [phase2Results, List.mem_map] at hr
  obtain ⟨pid, _, rfl⟩ := hr
  exact killProcess_done_fired _ _ _ _ _ _ b j hrd

/-! ### C1 — entry condition of the forceful phase -/

/-- C1: whenever the graceful phase's watchers all resolved,
`killProcesses` enters the forceful (SIGKILL) phase if and only if the
graceful deadline was observed fired at the graceful barrier AND
`forceKillAfterTimeout` is enabled AND the requested signal was neither
`"SIGKILL"` nor `9`; moreover, when the requested signal is already the
forceful-kill signal the forceful phase is never entered, regardless of
any timeout outcome and even when the graceful phase ended in an
error. -/
theorem forceful_phase_entry_iff (w : World) (pids : List Int)
    (signal : JSSignal) (opts : KillEmAllOptions) :
    ((∀ r ∈ phase1Results w pids signal opts, r.isDone = true) →
      (killProcesses w pids signal opts).forceRan =
        (phase1Fired w pids signal opts && forceEnabled opts &&
          !isSIGKILL signal))
    ∧ (isSIGKILL signal = true →
      (killProcesses w pids signal opts).forceRan = false) := by
  constructor
  · intro h
    have hj := joinPhase_all_done _ h
    simp only [killProcesses, hj]
    rw [show phase1Fired w pids signal opts =
      firedBy (gracefulT opts) (maxEndTime (phase1Results w pids signal opts))
      from rfl]
    by_cases hc : (firedBy (gracefulT opts)
        (maxEndTime (phase1Results w pids signal opts)) && forceEnabled opts &&
        !isSIGKILL signal) = true
    · rw [if_pos hc, hc]
      cases joinPhase (phase2Results w pids opts) with
      | none => rfl
      | some r => cases r with
        | error e => rfl
        | ok e2 => rfl
    · rw [if_neg hc, Bool.eq_false_iff.mpr hc]
  · intro hk
    simp only [killProcesses]
    cases hjp : joinPhase (phase1Results w pids signal opts) with
    | none => rfl
    | some r => cases r with
      | error e => rfl
      | ok e1 =>
        rw [hk]
        simp only [Bool.not_true, Bool.and_false, Bool.false_eq_true, if_false]

/-- C1 witness: with an instantly-dead target and default options the
force-entry equation is discharged at a concrete input. -/
theorem forceful_phase_entry_iff_witness :
    (killProcesses wGone [5] (.name "SIGTERM") {}).forceRan =
      (phase1Fired wGone [5] (.name "SIGTERM") {} && forceEnabled {} &&
        !isSIGKILL (.name "SIGTERM")) ∧
    (killProcesses wAlive [7] (.name "SIGKILL") optsShort).forceRan = false :=
  ⟨(forceful_phase_entry_iff wGone [5] (.name "SIGTERM") {}).1 (by decide),
   (forceful_phase_entry_iff wAlive [7] (.name "SIGKILL") optsShort).2 (by decide)⟩

/-! ### C2 — single failure mode: the timeout error -/

/-- C2 counterexample: a timed-out `killProcesses` call on PID list
`[42]` rejects with the fixed message `"Failed to kill processes within
timeout"`, which does not mention the target PID — refuting the claim
that the thrown timeout error names the root/target. -/
theorem timeout_error_does_not_name_target :
    (killProcesses wAlive [42] (.name "SIGTERM") optsShort).result =
      some (.error killTimeoutMsg)
    ∧ ¬ ("42".data <:+: killTimeoutMsg.data) :=
  ⟨by decide, by decide⟩

/-- C2 amended: when no watcher of either phase hung or rethrew a
backend error, `killProcesses` either rejects with the fixed timeout
error (whose message does not name the root/target) or resolves
successfully, and it rejects exactly when the deadline of the last phase
executed was observed fired — equivalently, exactly when some watcher of
that phase failed to confirm its PID's termination in time. -/
theorem killProcesses_timeout_iff (w : World) (pids : List Int)
    (signal : JSSignal) (opts : KillEmAllOptions)
    (h1 : ∀ r ∈ phase1Results w pids signal opts, r.isDone = true)
    (h2 : ∀ r ∈ phase2Results w pids opts, r.isDone = true) :
    ((killProcesses w pids signal opts).result = some (.error killTimeoutMsg) ∨
      (killProcesses w pids signal opts).result = some (.ok ()))
    ∧ ((killProcesses w pids signal opts).result = some (.error killTimeoutMsg)
      ↔ ∃ r ∈ lastPhaseResults w pids signal opts, r.confirmed = false) := by
  have hj1 := joinPhase_all_done _ h1
  have hj2 := joinPhase_all_done _ h2
  have hiff1 := phaseFired_iff_unconfirmed (gracefulT opts) _ h1
    (phase1Results_prop w pids signal opts)
  have hiff2 := phaseFired_iff_unconfirmed (forcefulT opts) _ h2
    (phase2Results_prop w pids opts)
  by_cases hc : (firedBy (gracefulT opts)
      (maxEndTime (phase1Results w pids signal opts)) && forceEnabled opts &&
      !isSIGKILL signal) = true
  · have hrun : killProcesses w pids signal opts =
        ⟨some (if firedBy (forcefulT opts) (maxEndTime (phase2Results w pids opts))
            then .error killTimeoutMsg else .ok ()), true,
          pids.map (fun pid => (pid, signal)),
          pids.map (fun pid => (pid, JSSignal.name "SIGKILL"))⟩ := by
      simp only [killProcesses, hj1, hj2, if_pos hc]
    have hlast : lastPhaseResults w pids signal opts =
        phase2Results w pids opts := by
      rw [lastPhaseResults, hrun]
      rfl
    by_cases hf2 : firedBy (forcefulT opts)
        (maxEndTime (phase2Results w pids opts)) = true
    · have hres : (killProcesses w pids signal opts).result =
          some (.error killTimeoutMsg) := by
        rw [hrun]
        simp [hf2]
      rw [hlast]
      exact ⟨.inl hres, fun _ => hiff2.mp hf2, fun _ => hres⟩
    · have hf2' : firedBy (forcefulT opts)
          (maxEndTime (phase2Results w pids opts)) = false :=
        Bool.eq_false_iff.mpr hf2
      have hres : (killProcesses w pids signal opts).result = some (.ok ()) := by
        rw [hrun]
        simp [hf2']
      rw [hlast]
      refine ⟨.inr hres, fun he => ?_, fun hex => ?_⟩
      · rw [hres] at he
        exact absurd he (by simp)
      · exact absurd (hiff2.mpr hex) (by simp [hf2'])
  · have hrun : killProcesses w pids signal opts =
        ⟨some (if firedBy (gracefulT opts)
            (maxEndTime (phase1Results w pids signal opts))
            then .error killTimeoutMsg else .ok ()), false,
          pids.map (fun pid => (pid, signal)), []⟩ := by
      simp only [killProcesses, hj1, if_neg hc]
    have hlast : lastPhaseResults w pids signal opts =
        phase1Results w pids signal opts := by
      rw [lastPhaseResults, hrun]
      rfl
    by_cases hf1 : firedBy (gracefulT opts)
        (maxEndTime (phase1Results w pids signal opts)) = true
    · have hres : (killProcesses w pids signal opts).result =
          some (.error killTimeoutMsg) := by
        rw [hrun]
        simp [hf1]
      rw [hlast]
      exact ⟨.inl hres, fun _ => hiff1.mp hf1, fun _ => hres⟩
    · have hf1' : firedBy (gracefulT opts)
          (maxEndTime (phase1Results w pids signal opts)) = false :=
        Bool.eq_false_iff.mpr hf1
      have hres : (killProcesses w pids signal opts).result = some (.ok ()) := by
        rw [hrun]
        simp [hf1']
      rw [hlast]
      refine ⟨.inr hres, fun he => ?_, fun hex => ?_⟩
      · rw [hres] at he
        exact absurd he (by simp)
      · exact absurd (hiff1.mpr hex) (by simp [hf1'])

/-- C2 amended witness: discharged on a PID that ignores both signals
under a 100 ms timeout — the call rejects with the timeout error, and
indeed the last (forceful) phase contains an unconfirmed watcher. -/
theorem killProcesses_timeout_iff_witness :
    (((killProcesses wAlive [42] (.name "SIGTERM") optsShort).result =
        some (.error killTimeoutMsg) ∨
      (killProcesses wAlive [42] (.name "SIGTERM") optsShort).result =
        some (.ok ()))
    ∧ ((killProcesses wAlive [42] (.name "SIGTERM") optsShort).result =
        some (.error killTimeoutMsg)
      ↔ ∃ r ∈ lastPhaseResults wAlive [42] (.name "SIGTERM") optsShort,
          r.confirmed = false)) :=
  killProcesses_timeout_iff wAlive [42] (.name "SIGTERM") optsShort
    (by decide) (by decide)

/-! ### C9 — forceful phase re-targets the entire original PID set -/

/-- C9: whenever the forceful phase runs, it dispatches a `SIGKILL`
watcher for every PID of the entire original list — the same list as the
graceful phase, not only the survivors. -/
theorem forceful_phase_full_set (w : World) (pids : List Int)
    (signal : JSSignal) (opts : KillEmAllOptions)
    (h : (killProcesses w pids signal opts).forceRan = true) :
    (killProcesses w pids signal opts).phase2Sent =
      pids.map (fun pid => (pid, JSSignal.name "SIGKILL"))
    ∧ ∀ pid ∈ pids, (pid, JSSignal.name "SIGKILL") ∈
      (killProcesses w pids signal opts).phase2Sent := by
  have hsent : (killProcesses w pids signal opts).phase2Sent =
      pids.map (fun pid => (pid, JSSignal.name "SIGKILL")) := by
    cases hjp : joinPhase (phase1Results w pids signal opts) with
    | none =>
      have hfr : (killProcesses w pids signal opts).forceRan = false := by
        simp only [killProcesses, hjp]
      rw [hfr] at h
      exact absurd h (by simp)
    | some r => cases r with
      | error e =>
        have hfr : (killProcesses w pids signal opts).forceRan = false := by
          simp only [killProcesses, hjp]
        rw [hfr] at h
        exact absurd h (by simp)
      | ok e1 =>
        by_cases hcond : (firedBy (gracefulT opts) e1 && forceEnabled opts &&
            !isSIGKILL signal) = true
        · cases hjp2 : joinPhase (phase2Results w pids opts) with
          | none => simp only [killProcesses, hjp, if_pos hcond, hjp2]
          | some r2 => cases r2 with
            | error e2 => simp only [killProcesses, hjp, if_pos hcond, hjp2]
            | ok e2 => simp only [killProcesses, hjp, if_pos hcond, hjp2]
        · have hfr : (killProcesses w pids signal opts).forceRan = false := by
            simp only [killProcesses, hjp, if_neg hcond]
          rw [hfr] at h
          exact absurd h (by simp)
  refine ⟨hsent, fun pid hpid => ?_⟩
  rw [hsent]
  exact List.mem_map_of_mem _ hpid

/-- C9 witness: PID 1 is already terminated in the graceful phase
(confirmed at time 0) while PID 2 ignores the signal, so the graceful
deadline fires; the forceful phase still dispatches to both PIDs,
including the already-dead PID 1. -/
theorem forceful_phase_full_set_witness :
    killProcess .posix 1 (.name "SIGTERM") goneBeh 100 3 = .done true 0
    ∧ (killProcesses wMixed [1, 2] (.name "SIGTERM") optsShort).phase2Sent =
        [((1 : Int), JSSignal.name "SIGKILL"), ((2 : Int), JSSignal.name "SIGKILL")]
    ∧ ∀ pid ∈ [(1 : Int), (2 : Int)], (pid, JSSignal.name "SIGKILL") ∈
        (killProcesses wMixed [1, 2] (.name "SIGTERM") optsShort).phase2Sent := by
  have happ := forceful_phase_full_set wMixed [1, 2] (.name "SIGTERM") optsShort
    (by decide)
  exact ⟨by decide, happ.1, happ.2⟩

/-! ### C10 — empty PID list -/

/-- C10: for the empty PID list and every world, signal and options,
`killProcesses` resolves successfully: it dispatches no watcher (hence
sends no signal) in either phase, never enters the forceful phase, and
no deadline can be observed fired (no waiting ever happens, so the
barrier is at time 0), hence no timeout failure. -/
theorem empty_pid_list_success (w : World) (signal : JSSignal)
    (opts : KillEmAllOptions) :
    killProcesses w [] signal opts =
      ⟨some (.ok ()), false, [], []⟩ := by
  have hjoin : joinPhase (phase1Results w [] signal opts) = some (.ok 0) := rfl
  have hnf : firedBy (gracefulT opts) 0 = false := by
    unfold firedBy
    rw [show decide (0 < 0) = false from rfl, Bool.and_false]
  simp only [killProcesses, hjoin, hnf, Bool.false_and, Bool.false_eq_true,
    if_false, List.map_nil]

end KillEmAll
